import Mathlib

/-!
# Verification of the Gatekeeper port-assignment service

A shallow embedding of `gatekeeper.py`: the MAC normalizer, the device
resolver (`find_device_by_mac`), the port allocator
(`get_max_assigned_port`), the assignment orchestrator (`request_port`)
and the health endpoint (`health_check`), together with theorems about
them.

The registry (NetBox, reached through `pynetbox`) is modelled as an
explicit state: lists of MAC-address objects, interfaces and device
records, plus flags describing schema support and injected faults of the
individual registry calls.  Python exceptions become `Except` values.
Wall-clock timestamps are threaded through as an opaque string.  The
model restricts `str.lower` to its ASCII behaviour (`Char.toLower`),
which covers every MAC-address character.
-/

namespace Gatekeeper

/-- A value of the `automation_proxy_port` custom field on a device
record. `none` is an absent/null field; Python stores arbitrary values,
of which the code only honours truthy `int`s, so we distinguish ints
from (string) junk. -/
inductive CFVal
  | none
  | int (n : Int)
  | str (s : String)
deriving DecidableEq, Repr

/-- Python truthiness test `port and isinstance(port, int)` used at
`gatekeeper.py:108` and `gatekeeper.py:245`: yields the port only for a
non-zero integer value. -/
def CFVal.truthyInt : CFVal → Option Int
  | .int n => if n = 0 then Option.none else some n
  | _ => Option.none

/-- A NetBox device record, restricted to the attributes the service
reads or writes: `proxy_port` is `custom_fields["automation_proxy_port"]`
and `cf_mac_address` is `custom_fields["mac_address"]`. -/
structure Device where
  id : Nat
  name : String
  proxy_port : CFVal
  cf_mac_address : Option String
deriving DecidableEq, Repr

/-- A NetBox 4.0+ first-class MAC-address object: `assigned_device` is
the device id reached through `assigned_object` (an interface) and its
`device` back-reference; `Option.none` when either link is null. -/
structure MacAddressObj where
  mac_address : String
  assigned_device : Option Nat
deriving DecidableEq, Repr

/-- A NetBox interface with its `mac_address` field (pre-4.0 schema) and
its owning device id (null for unattached interfaces). -/
structure Interface where
  mac_address : String
  device : Option Nat
deriving DecidableEq, Repr

/-- The registry state plus fault/schema switches: `hasMacEndpoint`
false models an older NetBox whose `dcim.mac_addresses` attribute raises
`AttributeError`; each `...Fails` flag models the corresponding registry
call raising an unexpected exception. -/
structure Registry where
  macObjects : List MacAddressObj
  interfaces : List Interface
  devices : List Device
  hasMacEndpoint : Bool
  macEndpointFails : Bool
  interfacesFail : Bool
  devicesFilterFails : Bool
  devicesAllFails : Bool
  nextId : Nat
deriving DecidableEq, Repr

/-- An unexpected registry exception (pynetbox/request error). -/
inductive RegErr
  | registryError
deriving DecidableEq, Repr

/-- Errors surfaced by the HTTP layer: `badRequest` is the 400 raised
for an invalid MAC, `serviceUnavailable` the 503 for a missing NetBox
connection, `internalError` the global exception handler's 500 (resolver
failure), `allocationFailed` the 500 raised inside the allocation
`try` block. -/
inductive ApiErr
  | badRequest (detail : String)
  | serviceUnavailable
  | internalError
  | allocationFailed
deriving DecidableEq, Repr

/-- HTTP status code of each error outcome, per the `HTTPException`
status codes and the global exception handler in `gatekeeper.py`. -/
def ApiErr.statusCode : ApiErr → Nat
  | .badRequest _ => 400
  | .serviceUnavailable => 503
  | .internalError => 500
  | .allocationFailed => 500

/-- HTTP status of a handler outcome: 200 on success. -/
def responseStatus {α : Type} : Except ApiErr α → Nat
  | .ok _ => 200
  | .error e => e.statusCode

/-- The body of `PortResponse` (the `timestamp` field carries the
caller-supplied clock value in the model). -/
structure PortResponse where
  mac : String
  port : Int
  existing : Bool
  device_name : Option String
deriving DecidableEq, Repr

/-- The body returned by the health endpoint. -/
structure HealthResponse where
  status : String
  netbox_connected : Bool
  timestamp : String
deriving DecidableEq, Repr

/-- `DEFAULT_START_PORT = 10001` (`gatekeeper.py:43`). -/
def DEFAULT_START_PORT : Int := 10001

/-- ASCII `str.lower`, character by character. -/
def strToLower (s : String) : String := ⟨s.data.map Char.toLower⟩

/-- Python `s.replace(c, "")` for a single-character pattern: removes
every occurrence of `c`. -/
def removeChar (c : Char) (s : String) : String := ⟨s.data.filter (· ≠ c)⟩

/-- The 2-character slices `[mac_clean[i:i+2] for i in range(0, 12, 2)]`
(general lists are chunked greedily; the caller only uses length-12
input, where this agrees with the Python slicing). -/
def chunks2 : List Char → List (List Char)
  | [] => []
  | [a] => [[a]]
  | a :: b :: rest => [a, b] :: chunks2 rest

/-- Python `":".join(chunks)` at the character level. -/
def addColons : List (List Char) → List Char
  | [] => []
  | [c] => c
  | c :: cs => c ++ ':' :: addColons cs

/-- `normalize_mac` (`gatekeeper.py:70-89`): lowercase, drop the
separators `:`, `-`, `.`, require exactly 12 remaining characters
(raising `ValueError` otherwise, modelled as `Except.error`), and
re-insert colons every two characters. -/
def normalize_mac (mac : String) : Except String String :=
  let mac := strToLower mac
  let mac_clean := removeChar '.' (removeChar '-' (removeChar ':' mac))
  if mac_clean.length ≠ 12 then
    .error ("Invalid MAC address length: " ++ toString mac_clean.length)
  else
    .ok ⟨addColons (chunks2 mac_clean.data)⟩

/-- The loop body of `get_max_assigned_port`: `max_port =
max(max_port, port)` for a truthy integer port, else unchanged. -/
def maxFold (max_port : Int) (device : Device) : Int :=
  match device.proxy_port.truthyInt with
  | some port => max max_port port
  | Option.none => max_port

/-- `get_max_assigned_port` (`gatekeeper.py:92-115`): fold over all
device records starting from `DEFAULT_START_PORT - 1`, taking the max of
every truthy integer `automation_proxy_port`; an enumeration failure
propagates. -/
def get_max_assigned_port (nb : Registry) : Except RegErr Int :=
  if nb.devicesAllFails then .error .registryError
  else .ok (nb.devices.foldl maxFold (DEFAULT_START_PORT - 1))

/-- `nb.dcim.devices.get(id)`: fetch a device by id, `None` if absent. -/
def lookupDevice (nb : Registry) (id : Nat) : Option Device :=
  nb.devices.find? (fun d => d.id = id)

/-- Strategy 1 of `find_device_by_mac` (`gatekeeper.py:137-148`): filter
the first-class MAC-address objects by `mac_address`; the first one
carrying an assigned interface with a device triggers `return
devices.get(...)` (the outer `some`); no such object falls through
(`Option.none`).  A missing `mac_addresses` endpoint raises
`AttributeError`, which the code catches and skips. -/
def strat1 (nb : Registry) (mac : String) : Option (Option Device) :=
  if nb.hasMacEndpoint then
    (nb.macObjects.filter (fun o => o.mac_address = mac)).findSome?
      (fun o => o.assigned_device.map (fun did => lookupDevice nb did))
  else Option.none

/-- Strategy 2 (`gatekeeper.py:151-158`): filter interfaces by their
`mac_address` field; the first one with a device triggers `return
devices.get(...)`.  The surrounding `except Exception` swallows any
failure of this strategy, treating it like zero matches. -/
def strat2 (nb : Registry) (mac : String) : Option (Option Device) :=
  if nb.interfacesFail then Option.none
  else
    (nb.interfaces.filter (fun i => i.mac_address = mac)).findSome?
      (fun i => i.device.map (fun did => lookupDevice nb did))

/-- Strategy 3 (`gatekeeper.py:161-164`): filter devices by the
`mac_address` custom field, returning the first match. -/
def strat3 (nb : Registry) (mac : String) : Option Device :=
  nb.devices.find? (fun d => d.cf_mac_address = some mac)

/-- `needle in hay` on Python strings: contiguous-substring test. -/
def startsWithChars : List Char → List Char → Bool
  | _, [] => true
  | [], _ :: _ => false
  | a :: hay, b :: needle => a = b && startsWithChars hay needle

/-- `needle in hay` on Python strings: contiguous-substring test. -/
def containsSub (hay needle : List Char) : Bool :=
  startsWithChars hay needle ||
    match hay with
    | [] => false
    | _ :: t => containsSub t needle

/-- `device.name.lower().replace(':', '').replace('-', '')`. -/
def cleanName (s : String) : List Char :=
  (((strToLower s).data.filter (· ≠ ':')).filter (· ≠ '-'))

/-- Strategy 4 (`gatekeeper.py:166-172`): scan all devices for the
separator-free MAC occurring inside the cleaned device name. -/
def strat4 (nb : Registry) (mac : String) : Option Device :=
  nb.devices.find? (fun d => containsSub (cleanName d.name) (removeChar ':' mac).data)

/-- `find_device_by_mac` (`gatekeeper.py:118-177`): the four lookup
strategies in order.  An unexpected failure of the `mac_addresses`
filter (strategy 1), the custom-field filter (strategy 3) or the
full-device scan (strategy 4) reaches the outer `except` and is
re-raised; a failure of strategy 2 is swallowed inside `strat2`. -/
def find_device_by_mac (nb : Registry) (mac : String) : Except RegErr (Option Device) :=
  if nb.hasMacEndpoint && nb.macEndpointFails then .error .registryError
  else
    match strat1 nb mac with
    | some r => .ok r
    | Option.none =>
      match strat2 nb mac with
      | some r => .ok r
      | Option.none =>
        if nb.devicesFilterFails then .error .registryError
        else
          match strat3 nb mac with
          | some d => .ok (some d)
          | Option.none =>
            if nb.devicesAllFails then .error .registryError
            else .ok (strat4 nb mac)

/-- In-place update of a resolved device's port custom field:
`existing_device.custom_fields[CUSTOM_FIELD_NAME] = new_port;
existing_device.save()` (`gatekeeper.py:269-270`). -/
def updatePort (devices : List Device) (id : Nat) (new_port : Int) : List Device :=
  devices.map (fun d => if d.id = id then { d with proxy_port := .int new_port } else d)

/-- The minimal pending device created at `gatekeeper.py:276-285`
(device type, role, site and status are opaque to the core and
omitted). -/
def newDevice (id : Nat) (name : String) (new_port : Int) : Device :=
  { id := id, name := name, proxy_port := .int new_port, cf_mac_address := Option.none }

/-- The allocation block of `request_port` (`gatekeeper.py:256-295`):
read the max assigned port, add one, then either update the resolved
unprovisioned device in place or create a fresh
`probe-<mac-without-separators>` record.  Failures inside this `try`
become the 500 `allocationFailed`. -/
def allocate_port (nb : Registry) (mac_normalized : String)
    (existing_device : Option Device) : Except ApiErr (PortResponse × Registry) :=
  match get_max_assigned_port nb with
  | .error _ => .error .allocationFailed
  | .ok max_port =>
    let new_port := max_port + 1
    let device_name := "probe-" ++ removeChar ':' mac_normalized
    match existing_device with
    | some d =>
      .ok ({ mac := mac_normalized, port := new_port, existing := false,
             device_name := some d.name },
           { nb with devices := updatePort nb.devices d.id new_port })
    | Option.none =>
      .ok ({ mac := mac_normalized, port := new_port, existing := false,
             device_name := some device_name },
           { nb with devices := nb.devices ++ [newDevice nb.nextId device_name new_port],
                     nextId := nb.nextId + 1 })

/-- `request_port` (`gatekeeper.py:200-302`): normalize (400 on
`ValueError`), require a NetBox connection (503), resolve the MAC — a
resolver exception escapes to the global handler (500) — and either
return a device's existing truthy integer port without writing, or
allocate. -/
def request_port (nb? : Option Registry) (mac : String) :
    Except ApiErr (PortResponse × Registry) :=
  match normalize_mac mac with
  | .error e => .error (.badRequest ("Invalid MAC address: " ++ e))
  | .ok mac_normalized =>
    match nb? with
    | Option.none => .error .serviceUnavailable
    | some nb =>
      match find_device_by_mac nb mac_normalized with
      | .error _ => .error .internalError
      | .ok (some device) =>
        match device.proxy_port.truthyInt with
        | some existing_port =>
          .ok ({ mac := mac_normalized, port := existing_port, existing := true,
                 device_name := some device.name }, nb)
        | Option.none => allocate_port nb mac_normalized (some device)
      | .ok Option.none => allocate_port nb mac_normalized Option.none

/-- `health_check` (`gatekeeper.py:180-189`): unconditionally returns a
body with `status`, the connection flag and a timestamp; it has no
failure path. -/
def health_check (nb? : Option Registry) (now : String) : Except ApiErr HealthResponse :=
  .ok { status := "healthy", netbox_connected := nb?.isSome, timestamp := now }

/-! ## Spec-side comparators (for refinement claims) -/

/-- The separator-stripping step of the normalizer, stated with a single
membership predicate (used to phrase what `normalize_mac` strips). -/
def stripSeparators (s : String) : List Char :=
  (s.data.map Char.toLower).filter (fun c => c ∉ ([':', '-', '.'] : List Char))

/-- ASCII hexadecimal digit test (the input is lowercased first, but the
spec's wording is case-insensitive, so both letter cases are allowed). -/
def isHexDigitChar (c : Char) : Bool :=
  c.isDigit || ('a' ≤ c && c ≤ 'f') || ('A' ≤ c && c ≤ 'F')

/-- The normalizer as the spec (§4.1) words it, for comparison with the
implementation: lowercase, strip all characters that are NOT hexadecimal
digits, fail unless exactly 12 hexadecimal characters remain, re-insert
colons every 2 characters. -/
def normalize_spec (mac : String) : Except String String :=
  let cleaned := (mac.data.map Char.toLower).filter isHexDigitChar
  if cleaned.length ≠ 12 then .error "InvalidLength"
  else .ok ⟨addColons (chunks2 cleaned)⟩

/-- The raw integer value of the port attribute, when the attribute
holds an integer (the spec's `assignedPort : optional integer`). -/
def intAttr : CFVal → Option Int
  | .int n => some n
  | _ => Option.none

/-- One step of the spec's maximum computation over the optional
integer port attribute. -/
def specMaxStep (acc : Option Int) (d : Device) : Option Int :=
  match intAttr d.proxy_port, acc with
  | some p, some m => some (max m p)
  | some p, Option.none => some p
  | Option.none, acc => acc

/-- Spec §4.3: enumerate all device records and compute the maximum
defined value of the optional (integer) port attribute. -/
def observed_max (nb : Registry) : Option Int :=
  nb.devices.foldl specMaxStep Option.none

/-- Combine a running integer maximum with an optional maximum. -/
def mergeMax (init : Int) : Option Int → Int
  | some m => max init m
  | Option.none => init

/-- Spec §4.3: `max(observed_max, floor - 1) + 1`, with baseline
`floor - 1` when no device has a defined port. -/
def nextPortSpec (nb : Registry) : Int :=
  match observed_max nb with
  | some m => max m (DEFAULT_START_PORT - 1) + 1
  | Option.none => (DEFAULT_START_PORT - 1) + 1

/-! ## Derived notions used in the theorems -/

/-- The ports the code treats as assigned: the truthy integer
`automation_proxy_port` values across all device records. -/
def portsList (nb : Registry) : List Int :=
  nb.devices.filterMap (fun d => d.proxy_port.truthyInt)

/-- Referential sanity of a registry snapshot: device ids referenced by
MAC-address objects and interfaces resolve, and device ids are unique.
Real NetBox data satisfies this (foreign keys and primary keys). -/
def Registry.WF (nb : Registry) : Prop :=
  (∀ o ∈ nb.macObjects, o.assigned_device.all (fun did => (lookupDevice nb did).isSome)) ∧
  (∀ i ∈ nb.interfaces, i.device.all (fun did => (lookupDevice nb did).isSome)) ∧
  (nb.devices.map (fun d => d.id)).Nodup

instance (nb : Registry) : Decidable nb.WF := by
  unfold Registry.WF
  infer_instance

/-! ## Interleaving semantics of concurrent `request_port` calls

The service handles requests concurrently (§5 of the spec); each call's
registry operations — resolve, read the max port, write — are individual
registry round-trips, so distinct calls' operations may interleave.  A
call is a small state machine whose atomic steps are exactly those
round-trips, and a schedule picks which call steps next. -/

/-- Progress of one in-flight `request_port` call (MAC already
normalized): `needPort` has resolved the device, `haveMax` has read the
current maximum, `done` returned, `aborted` hit a registry error. -/
inductive CallPhase
  | start
  | needPort (existing_device : Option Device)
  | haveMax (existing_device : Option Device) (max_port : Int)
  | done (resp : PortResponse)
  | aborted
deriving DecidableEq, Repr

/-- One in-flight call. -/
structure Call where
  mac : String
  phase : CallPhase
deriving DecidableEq, Repr

/-- One atomic registry round-trip of a call, following the phases of
`request_port`: resolve via `find_device_by_mac`, then (unless an
existing truthy port short-circuits) `get_max_assigned_port`, then the
create-or-update write of `allocate_port`. -/
def stepCall (nb : Registry) (c : Call) : Call × Registry :=
  match c.phase with
  | .start =>
    match find_device_by_mac nb c.mac with
    | .error _ => ({ c with phase := .aborted }, nb)
    | .ok (some d) =>
      match d.proxy_port.truthyInt with
      | some p =>
        ({ c with phase := .done { mac := c.mac, port := p, existing := true,
                                   device_name := some d.name } }, nb)
      | Option.none => ({ c with phase := .needPort (some d) }, nb)
    | .ok Option.none => ({ c with phase := .needPort Option.none }, nb)
  | .needPort ed =>
    match get_max_assigned_port nb with
    | .error _ => ({ c with phase := .aborted }, nb)
    | .ok m => ({ c with phase := .haveMax ed m }, nb)
  | .haveMax ed max_port =>
    let new_port := max_port + 1
    let device_name := "probe-" ++ removeChar ':' c.mac
    match ed with
    | some d =>
      ({ c with phase := .done { mac := c.mac, port := new_port, existing := false,
                                 device_name := some d.name } },
       { nb with devices := updatePort nb.devices d.id new_port })
    | Option.none =>
      ({ c with phase := .done { mac := c.mac, port := new_port, existing := false,
                                 device_name := some device_name } },
       { nb with devices := nb.devices ++ [newDevice nb.nextId device_name new_port],
                 nextId := nb.nextId + 1 })
  | .done _ => (c, nb)
  | .aborted => (c, nb)

/-- The whole system: the in-flight calls and the shared registry. -/
structure Sys where
  calls : List Call
  reg : Registry
deriving DecidableEq, Repr

/-- Let call `i` perform its next atomic registry operation. -/
def stepSys (s : Sys) (i : Nat) : Sys :=
  match s.calls.get? i with
  | some c =>
    let (c', r') := stepCall s.reg c
    { calls := s.calls.set i c', reg := r' }
  | Option.none => s

/-- Run a schedule (a list of call indices) to its end. -/
def runSched (s : Sys) : List Nat → Sys
  | [] => s
  | i :: rest => runSched (stepSys s i) rest

/-! ## Concrete fixtures -/

/-- A reachable, empty, fault-free registry with the 4.0+ schema. -/
def emptyReg : Registry :=
  { macObjects := [], interfaces := [], devices := [], hasMacEndpoint := true,
    macEndpointFails := false, interfacesFail := false, devicesFilterFails := false,
    devicesAllFails := false, nextId := 0 }

/-- Registry holding assigned ports 10001, 10002 and 10005. -/
def regPorts3 : Registry :=
  { emptyReg with
      devices := [⟨0, "sw-one", .int 10001, Option.none⟩,
                  ⟨1, "sw-two", .int 10002, Option.none⟩,
                  ⟨2, "sw-three", .int 10005, Option.none⟩],
      nextId := 3 }

/-- A pre-registered, unprovisioned device found through its
`mac_address` custom field. -/
def regPreRegistered : Registry :=
  { emptyReg with
      devices := [⟨0, "lab-probe-7", CFVal.none, some "aa:bb:cc:dd:ee:ff"⟩],
      nextId := 1 }

/-- A fully provisioned device with port 10042. -/
def regProvisioned : Registry :=
  { emptyReg with
      devices := [⟨0, "edge-probe-3", .int 10042, some "aa:bb:cc:dd:ee:ff"⟩],
      nextId := 1 }

/-- A device whose port custom field holds string junk. -/
def regJunkPort : Registry :=
  { emptyReg with
      devices := [⟨0, "probe-aabbccddeeff", .str "oops", Option.none⟩],
      nextId := 1 }

/-- A registry whose `mac_addresses` filter raises unexpectedly. -/
def regStrat1Fails : Registry := { emptyReg with macEndpointFails := true }

/-- A registry whose interface filter (strategy 2) raises
unexpectedly. -/
def regStrat2Fails : Registry := { emptyReg with interfacesFail := true }

/-- Two concurrent first-time calls for distinct MACs over an empty
registry. -/
def sys0 : Sys :=
  { calls := [⟨"aa:bb:cc:dd:ee:01", .start⟩, ⟨"aa:bb:cc:dd:ee:02", .start⟩],
    reg := emptyReg }

/-- The response of the first allocation on an empty registry. -/
def resp1 : PortResponse :=
  { mac := "aa:bb:cc:dd:ee:ff", port := 10001, existing := false,
    device_name := some "probe-aabbccddeeff" }

/-- The registry after that first allocation. -/
def regAfter1 : Registry :=
  { emptyReg with devices := [newDevice 0 "probe-aabbccddeeff" 10001], nextId := 1 }

/-- The response of allocating on `regPorts3` for a fresh MAC. -/
def resp3 : PortResponse :=
  { mac := "aa:bb:cc:dd:ee:ff", port := 10006, existing := false,
    device_name := some "probe-aabbccddeeff" }

/-- `regPorts3` after that allocation. -/
def regPorts3after : Registry :=
  { regPorts3 with
      devices := regPorts3.devices ++ [newDevice 3 "probe-aabbccddeeff" 10006],
      nextId := 4 }

/-- The character list left after the normalizer's three separator
removals (lowercased input with `:`, `-`, `.` dropped). -/
def cleanedOf (s : String) : List Char :=
  (removeChar '.' (removeChar '-' (removeChar ':' (strToLower s)))).data

end Gatekeeper

namespace Gatekeeper

/-! ## Lemmas about the normalizer -/

theorem data_mk (l : List Char) : (⟨l⟩ : String).data = l := rfl

theorem length_mk (l : List Char) : (⟨l⟩ : String).length = l.length := rfl

theorem toLower_toLower (c : Char) : c.toLower.toLower = c.toLower := by
  have key : ∀ n, 65 ≤ n → n ≤ 90 → (Char.ofNat (n + 32)).toLower = Char.ofNat (n + 32) := by
    intro n h1 h2
    interval_cases n <;> decide
  by_cases h : 65 ≤ c.toNat ∧ c.toNat ≤ 90
  · have hc : c.toLower = Char.ofNat (c.toNat + 32) := by
      unfold Char.toLower
      simp only [ge_iff_le]
      exact if_pos h
    rw [hc]
    exact key c.toNat h.1 h.2
  · have hc : c.toLower = c := by
      unfold Char.toLower
      simp only [ge_iff_le]
      exact if_neg h
    rw [hc, hc]

theorem join_chunks2 : ∀ l : List Char, (chunks2 l).flatten = l
  | [] => rfl
  | [a] => rfl
  | a :: b :: rest => by
    simp only [chunks2, List.flatten_cons, join_chunks2 rest]
    rfl

theorem mem_chunks2 {l ch : List Char} (hch : ch ∈ chunks2 l) {x : Char} (hx : x ∈ ch) :
    x ∈ l := by
  have hmem := List.mem_flatten.mpr ⟨ch, hch, hx⟩
  rwa [join_chunks2] at hmem

theorem mem_addColons {cs : List (List Char)} {x : Char} (h : x ∈ addColons cs) :
    x = ':' ∨ ∃ ch ∈ cs, x ∈ ch := by
  induction cs with
  | nil => simp [addColons] at h
  | cons c rest ih =>
    cases rest with
    | nil =>
      simp only [addColons] at h
      exact Or.inr ⟨c, by simp, h⟩
    | cons d rest2 =>
      simp only [addColons] at h
      rcases List.mem_append.mp h with hx | hx
      · exact Or.inr ⟨c, by simp, hx⟩
      · rcases List.mem_cons.mp hx with rfl | hx2
        · exact Or.inl rfl
        · rcases ih hx2 with h1 | ⟨ch, hch, hxm⟩
          · exact Or.inl h1
          · exact Or.inr ⟨ch, List.mem_cons_of_mem _ hch, hxm⟩

theorem filter_colon_addColons {cs : List (List Char)}
    (h : ∀ ch ∈ cs, ∀ x ∈ ch, x ≠ ':') :
    (addColons cs).filter (· ≠ ':') = cs.flatten := by
  induction cs with
  | nil => rfl
  | cons c rest ih =>
    have hc : c.filter (· ≠ ':') = c :=
      List.filter_eq_self.mpr (fun a ha => by simpa using h c (by simp) a ha)
    cases rest with
    | nil =>
      simpa [addColons, List.flatten] using hc
    | cons d rest2 =>
      have ih2 := ih (fun ch hch x hx => h ch (List.mem_cons_of_mem _ hch) x hx)
      simp only [addColons, List.filter_append, List.filter_cons, List.flatten_cons,
        ne_eq, decide_not] at ih2 hc ⊢
      rw [hc, ih2]
      simp

theorem normalize_mac_eq_ok {s r : String} (h : normalize_mac s = .ok r) :
    (cleanedOf s).length = 12 ∧ r.data = addColons (chunks2 (cleanedOf s)) := by
  simp only [normalize_mac] at h
  split at h
  · exact absurd h (by simp)
  · next hlen =>
    have h12 : (removeChar '.' (removeChar '-' (removeChar ':' (strToLower s)))).length = 12 :=
      not_not.mp (by simpa using hlen)
    refine ⟨h12, ?_⟩
    have hr := (Except.ok.injEq _ _).mp h
    rw [← hr]
    rfl

theorem normalize_mac_eq_ok_of {s : String} (hlen : (cleanedOf s).length = 12) :
    normalize_mac s = .ok ⟨addColons (chunks2 (cleanedOf s))⟩ := by
  have hlen' : (removeChar '.' (removeChar '-' (removeChar ':' (strToLower s)))).length = 12 :=
    hlen
  simp only [normalize_mac]
  rw [if_neg (by simp [hlen'])]
  rfl

theorem cleanedOf_spec {s : String} {x : Char} (h : x ∈ cleanedOf s) :
    x.toLower = x ∧ x ≠ ':' ∧ x ≠ '-' ∧ x ≠ '.' := by
  unfold cleanedOf removeChar strToLower at h
  simp only [data_mk, List.mem_filter, List.mem_map, decide_eq_true_eq] at h
  obtain ⟨⟨⟨⟨y, _, hy⟩, hc⟩, hd⟩, he⟩ := h
  exact ⟨hy ▸ toLower_toLower y, hc, hd, he⟩

theorem normalize_ok_idem {s r : String} (h : normalize_mac s = .ok r) :
    normalize_mac r = .ok r := by
  obtain ⟨hlen, hdata⟩ := normalize_mac_eq_ok h
  have hmem : ∀ x ∈ cleanedOf s, x.toLower = x ∧ x ≠ ':' ∧ x ≠ '-' ∧ x ≠ '.' :=
    fun x hx => cleanedOf_spec hx
  have hlow : r.data.map Char.toLower = r.data := by
    rw [hdata]
    have hfix : ∀ x ∈ addColons (chunks2 (cleanedOf s)), Char.toLower x = x := by
      intro x hx
      rcases mem_addColons hx with rfl | ⟨ch, hch, hxm⟩
      · decide
      · exact (hmem x (mem_chunks2 hch hxm)).1
    calc (addColons (chunks2 (cleanedOf s))).map Char.toLower
        = (addColons (chunks2 (cleanedOf s))).map id := List.map_congr_left hfix
      _ = addColons (chunks2 (cleanedOf s)) := List.map_id _
  have hnocolon : ∀ ch ∈ chunks2 (cleanedOf s), ∀ x ∈ ch, x ≠ ':' :=
    fun ch hch x hx => (hmem x (mem_chunks2 hch hx)).2.1
  have hclean : cleanedOf r = cleanedOf s := by
    have hrfl : cleanedOf r =
        (((r.data.map Char.toLower).filter (· ≠ ':')).filter (· ≠ '-')).filter (· ≠ '.') := rfl
    rw [hrfl, hlow, hdata, filter_colon_addColons hnocolon, join_chunks2]
    rw [show (cleanedOf s).filter (· ≠ '-') = cleanedOf s from
      List.filter_eq_self.mpr (fun a ha => by simpa using (hmem a ha).2.2.1)]
    exact List.filter_eq_self.mpr (fun a ha => by simpa using (hmem a ha).2.2.2)
  have hres := normalize_mac_eq_ok_of (s := r) (by rw [hclean]; exact hlen)
  rw [hclean, ← hdata] at hres
  exact hres

theorem stripSeparators_eq (s : String) : stripSeparators s = cleanedOf s := by
  unfold stripSeparators cleanedOf removeChar strToLower
  simp only [data_mk, List.filter_filter]
  apply List.filter_congr
  intro a _
  by_cases h1 : a = ':' <;> by_cases h2 : a = '-' <;> by_cases h3 : a = '.' <;>
    simp [h1, h2, h3]

/-! ## Claim C4 -/

/-- C4 (as stated, refuted): `normalize_mac` does not strip all
non-hexadecimal characters — it only strips `:`, `-` and `.` — so on
`"zzzzzzzzzzzz"` it succeeds although no hexadecimal characters are
present, where the spec's description demands a `ValidationError`. -/
theorem claim_C4_counterexample : ¬ (∀ s : String, normalize_mac s = normalize_spec s) := by
  intro hall
  have h := hall "zzzzzzzzzzzz"
  have h1 : normalize_mac "zzzzzzzzzzzz" = .ok "zz:zz:zz:zz:zz:zz" := rfl
  have h2 : normalize_spec "zzzzzzzzzzzz" = .error "InvalidLength" := rfl
  rw [h1, h2] at h
  exact Except.noConfusion h

/-- C4 (amended): for every input string, `normalize_mac` lowercases it,
strips the separator characters `:`, `-` and `.` (hexadecimality is not
checked), fails with a `ValidationError` — never a crash — unless
exactly 12 characters remain, and otherwise returns those 12 characters
joined with colons every 2 characters; in particular `"aabbcc"` and
`"not-a-mac"` yield `ValidationError`. -/
theorem claim_C4_normalize_behaviour :
    (∀ s : String,
      match normalize_mac s with
      | .ok r =>
          (stripSeparators s).length = 12 ∧
          r.data = addColons (chunks2 (stripSeparators s))
      | .error _ => (stripSeparators s).length ≠ 12) ∧
    normalize_mac "aabbcc" = .error "Invalid MAC address length: 6" ∧
    normalize_mac "not-a-mac" = .error "Invalid MAC address length: 7" := by
  refine ⟨fun s => ?_, rfl, rfl⟩
  split
  · rename_i r heq
    obtain ⟨hlen, hdata⟩ := normalize_mac_eq_ok heq
    rw [stripSeparators_eq]
    exact ⟨hlen, hdata⟩
  · rename_i e heq
    rw [stripSeparators_eq]
    intro h12
    have hok := normalize_mac_eq_ok_of h12
    rw [heq] at hok
    exact Except.noConfusion hok

/-! ## Claim C9 -/

/-- C9: normalization is idempotent on its valid domain — whenever
`normalize_mac` succeeds, running it again on its own output returns the
same output — and `"aa:bb:cc:dd:ee:ff"`, `"AA-BB-CC-DD-EE-FF"` and
`"aabbccddeeff"` all normalize to `"aa:bb:cc:dd:ee:ff"`. -/
theorem claim_C9_normalize_idempotent :
    (∀ s r : String, normalize_mac s = .ok r → normalize_mac r = .ok r) ∧
    normalize_mac "aa:bb:cc:dd:ee:ff" = .ok "aa:bb:cc:dd:ee:ff" ∧
    normalize_mac "AA-BB-CC-DD-EE-FF" = .ok "aa:bb:cc:dd:ee:ff" ∧
    normalize_mac "aabbccddeeff" = .ok "aa:bb:cc:dd:ee:ff" :=
  ⟨fun _ _ h => normalize_ok_idem h, rfl, rfl, rfl⟩

/-- Witness for C9: the idempotence implication applied to the concrete
success `normalize_mac "AA-BB-CC-DD-EE-FF" = ok "aa:bb:cc:dd:ee:ff"`. -/
theorem claim_C9_witness :
    normalize_mac "aa:bb:cc:dd:ee:ff" = .ok "aa:bb:cc:dd:ee:ff" :=
  claim_C9_normalize_idempotent.1 "AA-BB-CC-DD-EE-FF" "aa:bb:cc:dd:ee:ff" rfl

/-! ## Lemmas about the allocator's fold -/

theorem le_foldl_maxFold (l : List Device) : ∀ init : Int, init ≤ l.foldl maxFold init := by
  induction l with
  | nil => intro init; exact le_refl _
  | cons d t ih =>
    intro init
    rw [List.foldl_cons]
    cases h : d.proxy_port.truthyInt with
    | none =>
      have hd : maxFold init d = init := by simp [maxFold, h]
      rw [hd]; exact ih init
    | some p =>
      have hd : maxFold init d = max init p := by simp [maxFold, h]
      rw [hd]
      exact le_trans (le_max_left _ _) (ih _)

theorem mem_le_foldl_maxFold {l : List Device} {p : Int}
    (hp : p ∈ l.filterMap (fun d => d.proxy_port.truthyInt)) :
    ∀ init : Int, p ≤ l.foldl maxFold init := by
  induction l with
  | nil => simp at hp
  | cons d t ih =>
    intro init
    rw [List.foldl_cons]
    rw [List.filterMap_cons] at hp
    cases h : d.proxy_port.truthyInt with
    | none =>
      rw [h] at hp
      have hd : maxFold init d = init := by simp [maxFold, h]
      rw [hd]; exact ih hp init
    | some q =>
      rw [h] at hp
      have hd : maxFold init d = max init q := by simp [maxFold, h]
      rw [hd]
      rcases List.mem_cons.mp hp with rfl | hp2
      · exact le_trans (le_max_right _ _) (le_foldl_maxFold t _)
      · exact ih hp2 _

theorem foldl_maxFold_mergeMax (l : List Device) :
    ∀ (init : Int) (acc : Option Int), 0 ≤ init →
      l.foldl maxFold (mergeMax init acc) = mergeMax init (l.foldl specMaxStep acc) := by
  induction l with
  | nil => intro init acc _; rfl
  | cons d t ih =>
    intro init acc h0
    rw [List.foldl_cons, List.foldl_cons]
    rcases hcf : d.proxy_port with _ | n | s
    · have h1 : maxFold (mergeMax init acc) d = mergeMax init acc := by
        simp [maxFold, CFVal.truthyInt, hcf]
      have h2 : specMaxStep acc d = acc := by simp [specMaxStep, intAttr, hcf]
      rw [h1, h2]; exact ih init acc h0
    · by_cases hn : n = 0
      · subst hn
        have h1 : maxFold (mergeMax init acc) d = mergeMax init acc := by
          simp [maxFold, CFVal.truthyInt, hcf]
        have h2 : specMaxStep acc d = some (mergeMax 0 acc) := by
          cases acc with
          | none => simp [specMaxStep, intAttr, hcf, mergeMax]
          | some m => simp [specMaxStep, intAttr, hcf, mergeMax, max_comm]
        rw [h1, h2]
        have hmerge : mergeMax init (some (mergeMax 0 acc)) = mergeMax init acc := by
          cases acc with
          | none => simp [mergeMax, max_eq_left h0]
          | some m =>
            simp only [mergeMax]
            rw [max_comm (0 : Int) m, ← max_assoc]
            exact max_eq_left (le_trans h0 (le_max_left _ _))
        rw [← hmerge]
        exact ih init (some (mergeMax 0 acc)) h0
      · have h1 : maxFold (mergeMax init acc) d = max (mergeMax init acc) n := by
          simp [maxFold, CFVal.truthyInt, hcf, hn]
        have h2 : specMaxStep acc d = some (mergeMax n acc) := by
          cases acc with
          | none => simp [specMaxStep, intAttr, hcf, mergeMax]
          | some m => simp [specMaxStep, intAttr, hcf, mergeMax, max_comm]
        rw [h1, h2]
        have hmerge : max (mergeMax init acc) n = mergeMax init (some (mergeMax n acc)) := by
          cases acc with
          | none => simp [mergeMax]
          | some m =>
            simp only [mergeMax]
            rw [max_comm n m, ← max_assoc]
        rw [hmerge]
        exact ih init (some (mergeMax n acc)) h0
    · have h1 : maxFold (mergeMax init acc) d = mergeMax init acc := by
        simp [maxFold, CFVal.truthyInt, hcf]
      have h2 : specMaxStep acc d = acc := by simp [specMaxStep, intAttr, hcf]
      rw [h1, h2]; exact ih init acc h0

theorem foldl_maxFold_eq_nextPortSpec (nb : Registry) :
    nb.devices.foldl maxFold (DEFAULT_START_PORT - 1) + 1 = nextPortSpec nb := by
  have h := foldl_maxFold_mergeMax nb.devices (DEFAULT_START_PORT - 1) Option.none
    (by norm_num [DEFAULT_START_PORT])
  have hm : mergeMax (DEFAULT_START_PORT - 1) Option.none = DEFAULT_START_PORT - 1 := rfl
  rw [hm] at h
  rw [h]
  unfold nextPortSpec observed_max
  cases nb.devices.foldl specMaxStep Option.none with
  | none => rfl
  | some m => simp [mergeMax, max_comm]

/-! ## Claim C3 -/

/-- C3: every new allocation chooses `max(observed_max, floor - 1) + 1`
where `observed_max` is the spec's maximum defined port attribute and
the floor is 10001; with assigned ports 10001, 10002, 10005 the next
allocation yields 10006 (max + 1, not the first gap), and on a registry
with no assigned port it yields 10001. -/
theorem claim_C3_next_port :
    (∀ (nb : Registry) (mac_normalized : String) (ed : Option Device)
       (r : PortResponse) (nb' : Registry),
        allocate_port nb mac_normalized ed = .ok (r, nb') → r.port = nextPortSpec nb) ∧
    (∃ r nb', request_port (some regPorts3) "11:22:33:44:55:66" = .ok (r, nb') ∧
       r.port = 10006 ∧ r.existing = false) ∧
    (∃ r nb', request_port (some emptyReg) "11:22:33:44:55:66" = .ok (r, nb') ∧
       r.port = 10001 ∧ r.existing = false) := by
  refine ⟨?_, ⟨_, _, rfl, rfl, rfl⟩, ⟨_, _, rfl, rfl, rfl⟩⟩
  intro nb mac ed r nb' h
  unfold allocate_port at h
  rcases hmax : get_max_assigned_port nb with e | m
  · rw [hmax] at h; exact absurd h (by simp)
  · rw [hmax] at h
    have hr : r.port = m + 1 := by
      cases ed with
      | none =>
        have hpair := (Except.ok.injEq _ _).mp h
        injection hpair with ha hb
        rw [← ha]
      | some d =>
        have hpair := (Except.ok.injEq _ _).mp h
        injection hpair with ha hb
        rw [← ha]
    rw [hr]
    unfold get_max_assigned_port at hmax
    split at hmax
    · exact absurd hmax (by simp)
    · have hm : m = nb.devices.foldl maxFold (DEFAULT_START_PORT - 1) :=
        ((Except.ok.injEq _ _).mp hmax).symm
      rw [hm]
      exact foldl_maxFold_eq_nextPortSpec nb

/-- Witness for C3: the allocation formula applied to the concrete
three-device registry. -/
theorem claim_C3_witness : resp3.port = nextPortSpec regPorts3 :=
  claim_C3_next_port.1 regPorts3 "aa:bb:cc:dd:ee:ff" Option.none resp3 regPorts3after rfl

/-! ## Lemmas about the resolver and the update write -/

theorem lookupDevice_mem {nb : Registry} {did : Nat} {d : Device}
    (h : lookupDevice nb did = some d) : d ∈ nb.devices :=
  List.mem_of_find?_eq_some h

theorem strat1_some_mem {nb : Registry} {mac : String} {d : Device}
    (h1 : strat1 nb mac = some (some d)) : d ∈ nb.devices := by
  unfold strat1 at h1
  split at h1
  · obtain ⟨o, _, ho⟩ := List.exists_of_findSome?_eq_some h1
    cases hdev : o.assigned_device with
    | none => rw [hdev] at ho; exact absurd ho (by simp)
    | some did =>
      rw [hdev] at ho
      have hl : lookupDevice nb did = some d := by simpa using ho
      exact lookupDevice_mem hl
  · exact absurd h1 (by simp)

theorem strat2_some_mem {nb : Registry} {mac : String} {d : Device}
    (h2 : strat2 nb mac = some (some d)) : d ∈ nb.devices := by
  unfold strat2 at h2
  split at h2
  · exact absurd h2 (by simp)
  · obtain ⟨i, _, hi⟩ := List.exists_of_findSome?_eq_some h2
    cases hdev : i.device with
    | none => rw [hdev] at hi; exact absurd hi (by simp)
    | some did =>
      rw [hdev] at hi
      have hl : lookupDevice nb did = some d := by simpa using hi
      exact lookupDevice_mem hl

theorem find_device_mem {nb : Registry} {mac : String} {d : Device}
    (h : find_device_by_mac nb mac = .ok (some d)) : d ∈ nb.devices := by
  unfold find_device_by_mac at h
  split at h
  · exact absurd h (by simp)
  split at h
  · next r heq =>
    have hr : r = some d := by simpa using h
    exact strat1_some_mem (hr ▸ heq)
  split at h
  · next r2 heq2 =>
    have hr : r2 = some d := by simpa using h
    exact strat2_some_mem (hr ▸ heq2)
  split at h
  · exact absurd h (by simp)
  split at h
  · next d3 heq3 =>
    have hd3 : d3 = d := by simpa using h
    exact hd3 ▸ List.mem_of_find?_eq_some heq3
  split at h
  · exact absurd h (by simp)
  · have h4 : strat4 nb mac = some d := by simpa using h
    exact List.mem_of_find?_eq_some h4

theorem eq_of_mem_of_id_eq {l : List Device} {d e : Device}
    (hnodup : (l.map (fun x => x.id)).Nodup) (hd : d ∈ l) (he : e ∈ l)
    (hid : d.id = e.id) : d = e := by
  have := List.inj_on_of_nodup_map hnodup
  exact this hd he hid

theorem lookup_updatePort {l : List Device} {d : Device} (hmem : d ∈ l)
    (hnodup : (l.map (fun e => e.id)).Nodup) (p : Int) :
    (updatePort l d.id p).find? (fun e => e.id = d.id) =
      some { d with proxy_port := .int p } := by
  induction l with
  | nil => simp at hmem
  | cons e t ih =>
    rw [List.map_cons, List.nodup_cons] at hnodup
    by_cases hid : e.id = d.id
    · have hed : e = d := by
        rcases List.mem_cons.mp hmem with rfl | hmem2
        · rfl
        · exact absurd (hid ▸ List.mem_map_of_mem (fun x => x.id) hmem2) hnodup.1
      subst hed
      simp [updatePort, List.find?_cons, hid]
    · have hmem2 : d ∈ t := by
        rcases List.mem_cons.mp hmem with rfl | hmem2
        · exact absurd rfl hid
        · exact hmem2
      have hupd : updatePort (e :: t) d.id p = e :: updatePort t d.id p := by
        simp [updatePort, hid]
      rw [hupd, List.find?_cons]
      have hpred : (decide (e.id = d.id)) = false := by simpa using hid
      rw [hpred]
      exact ih hmem2 hnodup.2

theorem clearPort_junk_foldl {l : List Device} {d : Device} (hmem : d ∈ l)
    (hnodup : (l.map (fun e => e.id)).Nodup)
    (hjunk : d.proxy_port.truthyInt = Option.none) :
    ∀ init : Int,
      (l.map (fun e => if e.id = d.id then { e with proxy_port := CFVal.none } else e)).foldl
          maxFold init =
        l.foldl maxFold init := by
  induction l with
  | nil => intro init; rfl
  | cons e t ih =>
    intro init
    rw [List.map_cons, List.nodup_cons] at hnodup
    rw [List.map_cons, List.foldl_cons, List.foldl_cons]
    by_cases hid : e.id = d.id
    · have hed : e = d := by
        rcases List.mem_cons.mp hmem with rfl | hmem2
        · rfl
        · exact absurd (hid ▸ List.mem_map_of_mem (fun x => x.id) hmem2) hnodup.1
      subst hed
      have h1 : maxFold init { e with proxy_port := CFVal.none } = init := by
        simp [maxFold, CFVal.truthyInt]
      have h2 : maxFold init e = init := by simp [maxFold, hjunk]
      rw [if_pos hid, h1, h2]
      have hclear : t.map (fun x => if x.id = e.id then { x with proxy_port := CFVal.none } else x) = t := by
        apply List.map_congr_left ?_ |>.trans (List.map_id t)
        intro x hx
        have hne : x.id ≠ e.id := by
          intro hxe
          exact hnodup.1 (hxe ▸ List.mem_map_of_mem (fun y => y.id) hx)
        simp [hne]
      rw [hclear]
    · have hmem2 : d ∈ t := by
        rcases List.mem_cons.mp hmem with rfl | hmem2
        · exact absurd rfl hid
        · exact hmem2
      rw [if_neg hid]
      exact ih hmem2 hnodup.2 (maxFold init e)

/-! ## Claim C7 -/

/-- C7: for a MAC resolving to a device with a defined (truthy integer)
port, `request_port` returns exactly that port with `existing = true`
and performs no registry write: the returned state is the input state. -/
theorem claim_C7_read_path (nb : Registry) (mac nmac : String) (d : Device) (p : Int)
    (hn : normalize_mac mac = .ok nmac)
    (hfind : find_device_by_mac nb nmac = .ok (some d))
    (hport : d.proxy_port.truthyInt = some p) :
    request_port (some nb) mac =
      .ok ({ mac := nmac, port := p, existing := true, device_name := some d.name }, nb) := by
  simp [request_port, hn, hfind, hport]

/-- Witness for C7 on the concrete provisioned registry. -/
theorem claim_C7_witness :
    request_port (some regProvisioned) "AA:BB:CC:DD:EE:FF" =
      .ok ({ mac := "aa:bb:cc:dd:ee:ff", port := 10042, existing := true,
             device_name := some "edge-probe-3" }, regProvisioned) :=
  claim_C7_read_path regProvisioned "AA:BB:CC:DD:EE:FF" "aa:bb:cc:dd:ee:ff"
    ⟨0, "edge-probe-3", .int 10042, some "aa:bb:cc:dd:ee:ff"⟩ 10042 rfl rfl rfl

/-! ## Claim C6 -/

/-- C6: a MAC resolving to a device with no defined port gets that same
record updated in place with the newly computed port — the device name
is preserved and no second record is created — and `existing = false` is
returned. -/
theorem claim_C6_update_in_place (nb : Registry) (mac nmac : String) (d : Device)
    (hn : normalize_mac mac = .ok nmac)
    (hfind : find_device_by_mac nb nmac = .ok (some d))
    (hport : d.proxy_port.truthyInt = Option.none)
    (hflag : nb.devicesAllFails = false) :
    ∃ r nb',
      request_port (some nb) mac = .ok (r, nb') ∧
      r.existing = false ∧
      r.device_name = some d.name ∧
      nb'.devices = updatePort nb.devices d.id r.port ∧
      nb'.devices.map (fun e => e.name) = nb.devices.map (fun e => e.name) ∧
      nb'.devices.length = nb.devices.length := by
  have hmax : get_max_assigned_port nb =
      .ok (nb.devices.foldl maxFold (DEFAULT_START_PORT - 1)) := by
    unfold get_max_assigned_port
    rw [if_neg (by simp [hflag])]
  refine ⟨{ mac := nmac, port := nb.devices.foldl maxFold (DEFAULT_START_PORT - 1) + 1,
            existing := false, device_name := some d.name },
          { nb with devices := (updatePort nb.devices d.id
              (nb.devices.foldl maxFold (DEFAULT_START_PORT - 1) + 1)) },
          ?_, rfl, rfl, rfl, ?_, ?_⟩
  · simp [request_port, hn, hfind, hport, allocate_port, hmax]
  · unfold updatePort
    rw [List.map_map]
    apply List.map_congr_left
    intro e _
    by_cases h : e.id = d.id <;> simp [h]
  · simp [updatePort]

/-- Witness for C6 on the concrete pre-registered registry. -/
theorem claim_C6_witness :
    ∃ r nb',
      request_port (some regPreRegistered) "AA:BB:CC:DD:EE:FF" = .ok (r, nb') ∧
      r.existing = false ∧
      r.device_name = some "lab-probe-7" ∧
      nb'.devices = updatePort regPreRegistered.devices 0 r.port ∧
      nb'.devices.map (fun e => e.name) = regPreRegistered.devices.map (fun e => e.name) ∧
      nb'.devices.length = regPreRegistered.devices.length :=
  claim_C6_update_in_place regPreRegistered "AA:BB:CC:DD:EE:FF" "aa:bb:cc:dd:ee:ff"
    ⟨0, "lab-probe-7", CFVal.none, some "aa:bb:cc:dd:ee:ff"⟩ rfl rfl rfl rfl

/-! ## Claim C10 -/

/-- C10: a device record whose port custom field holds 0 or a string is
treated by both the allocator and the orchestrator's existing-port check
as having no assigned port: clearing the field does not change the
computed maximum, and `request_port` for that device's MAC returns
`existing = false` with a freshly computed port, overwriting the
attribute. -/
theorem claim_C10_degenerate_port (nb : Registry) (mac nmac : String) (d : Device)
    (hn : normalize_mac mac = .ok nmac)
    (hfind : find_device_by_mac nb nmac = .ok (some d))
    (hjunk : d.proxy_port = CFVal.int 0 ∨ ∃ s, d.proxy_port = CFVal.str s)
    (hflag : nb.devicesAllFails = false)
    (hnodup : (nb.devices.map (fun e => e.id)).Nodup) :
    get_max_assigned_port nb =
      get_max_assigned_port
        { nb with devices := (nb.devices.map
            (fun e => if e.id = d.id then { e with proxy_port := CFVal.none } else e)) } ∧
    ∃ r nb',
      request_port (some nb) mac = .ok (r, nb') ∧
      r.existing = false ∧
      r.port = nb.devices.foldl maxFold (DEFAULT_START_PORT - 1) + 1 ∧
      lookupDevice nb' d.id = some { d with proxy_port := .int r.port } := by
  have hport : d.proxy_port.truthyInt = Option.none := by
    rcases hjunk with h0 | ⟨s, hs⟩
    · rw [h0]; rfl
    · rw [hs]; rfl
  have hmem : d ∈ nb.devices := find_device_mem hfind
  have hmax : get_max_assigned_port nb =
      .ok (nb.devices.foldl maxFold (DEFAULT_START_PORT - 1)) := by
    unfold get_max_assigned_port
    rw [if_neg (by simp [hflag])]
  constructor
  · unfold get_max_assigned_port
    rw [if_neg (by simp [hflag]), if_neg (by simp [hflag])]
    rw [clearPort_junk_foldl hmem hnodup hport]
  · refine ⟨{ mac := nmac, port := nb.devices.foldl maxFold (DEFAULT_START_PORT - 1) + 1,
              existing := false, device_name := some d.name },
            { nb with devices := (updatePort nb.devices d.id
                (nb.devices.foldl maxFold (DEFAULT_START_PORT - 1) + 1)) },
            ?_, rfl, rfl, ?_⟩
    · simp [request_port, hn, hfind, hport, allocate_port, hmax]
    · exact lookup_updatePort hmem hnodup _

/-- Witness for C10 on the concrete junk-port registry. -/
theorem claim_C10_witness :
    get_max_assigned_port regJunkPort =
      get_max_assigned_port
        { regJunkPort with devices := (regJunkPort.devices.map
            (fun e => if e.id = 0 then { e with proxy_port := CFVal.none } else e)) } ∧
    ∃ r nb',
      request_port (some regJunkPort) "aa:bb:cc:dd:ee:ff" = .ok (r, nb') ∧
      r.existing = false ∧
      r.port = regJunkPort.devices.foldl maxFold (DEFAULT_START_PORT - 1) + 1 ∧
      lookupDevice nb' 0 =
        some ⟨0, "probe-aabbccddeeff", .int r.port, Option.none⟩ :=
  claim_C10_degenerate_port regJunkPort "aa:bb:cc:dd:ee:ff" "aa:bb:cc:dd:ee:ff"
    ⟨0, "probe-aabbccddeeff", .str "oops", Option.none⟩ rfl rfl
    (Or.inr ⟨"oops", rfl⟩) rfl (by decide)

/-! ## Lemmas for the create-then-rediscover round trip (C1) -/

theorem data_append (a b : String) : (a ++ b).data = a.data ++ b.data := rfl

theorem startsWithChars_append (l : List Char) :
    ∀ r : List Char, startsWithChars (l ++ r) l = true := by
  induction l with
  | nil => intro r; simp [startsWithChars]
  | cons a t ih => intro r; simp [startsWithChars, ih r]

theorem containsSub_suffix (needle : List Char) :
    ∀ pre : List Char, containsSub (pre ++ needle) needle = true := by
  intro pre
  induction pre with
  | nil =>
    have h := startsWithChars_append needle []
    rw [List.append_nil] at h
    unfold containsSub
    rw [List.nil_append, h]
    simp
  | cons a p ih =>
    unfold containsSub
    rw [List.cons_append]
    simp only [Bool.or_eq_true]
    right
    exact ih

theorem strat1_none_congr {nb nb' : Registry} {mac : String}
    (hmo : nb'.macObjects = nb.macObjects)
    (hE : nb'.hasMacEndpoint = nb.hasMacEndpoint)
    (h : strat1 nb mac = Option.none) : strat1 nb' mac = Option.none := by
  unfold strat1 at h ⊢
  rw [hE, hmo]
  cases hEE : nb.hasMacEndpoint with
  | false => simp [hEE]
  | true =>
    rw [hEE] at h
    simp only [if_true] at h ⊢
    rw [List.findSome?_eq_none_iff] at h ⊢
    intro o ho
    have hone := h o ho
    cases hod : o.assigned_device with
    | none => rfl
    | some did => rw [hod] at hone; simp at hone

theorem strat2_none_congr {nb nb' : Registry} {mac : String}
    (hi : nb'.interfaces = nb.interfaces)
    (hF : nb'.interfacesFail = nb.interfacesFail)
    (h : strat2 nb mac = Option.none) : strat2 nb' mac = Option.none := by
  unfold strat2 at h ⊢
  rw [hF, hi]
  cases hFF : nb.interfacesFail with
  | true => simp [hFF]
  | false =>
    rw [hFF] at h
    simp only [Bool.false_eq_true, if_false] at h ⊢
    rw [List.findSome?_eq_none_iff] at h ⊢
    intro i hi2
    have hone := h i hi2
    cases hod : i.device with
    | none => rfl
    | some did => rw [hod] at hone; simp at hone

theorem strat1_not_some_none {nb : Registry} {mac : String} (hwf : nb.WF) :
    strat1 nb mac ≠ some Option.none := by
  intro h
  unfold strat1 at h
  split at h
  · obtain ⟨o, ho, hf⟩ := List.exists_of_findSome?_eq_some h
    cases hod : o.assigned_device with
    | none => rw [hod] at hf; simp at hf
    | some did =>
      rw [hod] at hf
      have hl : lookupDevice nb did = Option.none := by simpa using hf
      have hall := hwf.1 o (List.mem_of_mem_filter ho)
      rw [hod] at hall
      simp only [Option.all] at hall
      rw [hl] at hall
      simp at hall
  · simp at h

theorem strat2_not_some_none {nb : Registry} {mac : String} (hwf : nb.WF) :
    strat2 nb mac ≠ some Option.none := by
  intro h
  unfold strat2 at h
  split at h
  · simp at h
  · obtain ⟨i, hi, hf⟩ := List.exists_of_findSome?_eq_some h
    cases hod : i.device with
    | none => rw [hod] at hf; simp at hf
    | some did =>
      rw [hod] at hf
      have hl : lookupDevice nb did = Option.none := by simpa using hf
      have hall := hwf.2.1 i (List.mem_of_mem_filter hi)
      rw [hod] at hall
      simp only [Option.all] at hall
      rw [hl] at hall
      simp at hall

theorem find_none_parts {nb : Registry} {mac : String} (hwf : nb.WF)
    (h : find_device_by_mac nb mac = .ok Option.none) :
    (nb.hasMacEndpoint && nb.macEndpointFails) = false ∧
    strat1 nb mac = Option.none ∧
    strat2 nb mac = Option.none ∧
    nb.devicesFilterFails = false ∧
    strat3 nb mac = Option.none ∧
    nb.devicesAllFails = false ∧
    strat4 nb mac = Option.none := by
  unfold find_device_by_mac at h
  split at h
  · exact absurd h (by simp)
  next hflag =>
  cases h1 : strat1 nb mac with
  | some r =>
    rw [h1] at h
    have hr : r = Option.none := by simpa using h
    exact absurd (hr ▸ h1) (strat1_not_some_none hwf)
  | none =>
  rw [h1] at h
  cases h2 : strat2 nb mac with
  | some r =>
    rw [h2] at h
    have hr : r = Option.none := by simpa using h
    exact absurd (hr ▸ h2) (strat2_not_some_none hwf)
  | none =>
  rw [h2] at h
  cases hff : nb.devicesFilterFails with
  | true => rw [hff] at h; simp at h
  | false =>
  rw [hff] at h
  cases h3 : strat3 nb mac with
  | some d => rw [h3] at h; simp at h
  | none =>
  rw [h3] at h
  cases haf : nb.devicesAllFails with
  | true => rw [haf] at h; simp at h
  | false =>
  rw [haf] at h
  have h4 : strat4 nb mac = Option.none := by simpa using h
  exact ⟨by simpa using hflag, rfl, rfl, rfl, rfl, rfl, h4⟩

theorem find_via_strat4 {nb : Registry} {mac : String}
    (hflag : (nb.hasMacEndpoint && nb.macEndpointFails) = false)
    (h1 : strat1 nb mac = Option.none)
    (h2 : strat2 nb mac = Option.none)
    (hff : nb.devicesFilterFails = false)
    (h3 : strat3 nb mac = Option.none)
    (haf : nb.devicesAllFails = false) :
    find_device_by_mac nb mac = .ok (strat4 nb mac) := by
  unfold find_device_by_mac
  rw [hflag, h1, h2, hff, h3, haf]
  simp

/-! ## Claim C1 -/

/-- C1: for a MAC unknown to a well-formed registry, two sequential
`request_port` calls yield `existing = false` with some port `p` and
then `existing = true` with the same `p`: the first call creates a
record named `probe-<mac-without-separators>` carrying `p`, and the
second call resolves that record and returns its stored port without
allocating (the registry is unchanged). -/
theorem claim_C1_assign_twice (nb : Registry) (mac nmac : String)
    (hwf : nb.WF)
    (hn : normalize_mac mac = .ok nmac)
    (hfind : find_device_by_mac nb nmac = .ok Option.none) :
    ∃ p nb1,
      request_port (some nb) mac =
        .ok ({ mac := nmac, port := p, existing := false,
               device_name := some ("probe-" ++ removeChar ':' nmac) }, nb1) ∧
      nb1.devices = nb.devices ++
        [newDevice nb.nextId ("probe-" ++ removeChar ':' nmac) p] ∧
      request_port (some nb1) mac =
        .ok ({ mac := nmac, port := p, existing := true,
               device_name := some ("probe-" ++ removeChar ':' nmac) }, nb1) := by
  obtain ⟨hflag, h1, h2, hff, h3, haf, h4⟩ := find_none_parts hwf hfind
  obtain ⟨hlen, hdata⟩ := normalize_mac_eq_ok hn
  have hmemspec : ∀ x ∈ cleanedOf mac, x.toLower = x ∧ x ≠ ':' ∧ x ≠ '-' ∧ x ≠ '.' :=
    fun x hx => cleanedOf_spec hx
  have hnocolon : ∀ ch ∈ chunks2 (cleanedOf mac), ∀ x ∈ ch, x ≠ ':' :=
    fun ch hch x hx => (hmemspec x (mem_chunks2 hch hx)).2.1
  have hW : (removeChar ':' nmac).data = cleanedOf mac := by
    show nmac.data.filter (· ≠ ':') = cleanedOf mac
    rw [hdata, filter_colon_addColons hnocolon, join_chunks2]
  have hp1 : "probe-".data.map Char.toLower = "probe-".data := by decide
  have hp2 : "probe-".data.filter (· ≠ ':') = "probe-".data := by decide
  have hp3 : "probe-".data.filter (· ≠ '-') = "probe".data := by decide
  have hc1 : (cleanedOf mac).filter (· ≠ ':') = cleanedOf mac :=
    List.filter_eq_self.mpr (fun a ha => by simpa using (hmemspec a ha).2.1)
  have hc2 : (cleanedOf mac).filter (· ≠ '-') = cleanedOf mac :=
    List.filter_eq_self.mpr (fun a ha => by simpa using (hmemspec a ha).2.2.1)
  have hlowcl : (removeChar ':' nmac).data.map Char.toLower = (removeChar ':' nmac).data := by
    rw [hW]
    exact (List.map_congr_left (fun a ha => (hmemspec a ha).1)).trans (List.map_id _)
  have hstep : cleanName ("probe-" ++ removeChar ':' nmac) =
      (("probe-".data ++ cleanedOf mac).filter (· ≠ ':')).filter (· ≠ '-') := by
    unfold cleanName strToLower
    rw [data_mk, data_append, List.map_append, hp1, hlowcl, hW]
  have hname : cleanName ("probe-" ++ removeChar ':' nmac) =
      "probe".data ++ cleanedOf mac := by
    rw [hstep, List.filter_append, hp2, hc1, List.filter_append, hp3, hc2]
  have hcontains : containsSub (cleanName ("probe-" ++ removeChar ':' nmac))
      (removeChar ':' nmac).data = true := by
    rw [hname, hW]
    exact containsSub_suffix (cleanedOf mac) "probe".data
  have hmax : get_max_assigned_port nb =
      .ok (nb.devices.foldl maxFold (DEFAULT_START_PORT - 1)) := by
    unfold get_max_assigned_port
    rw [if_neg (by simp [haf])]
  refine ⟨nb.devices.foldl maxFold (DEFAULT_START_PORT - 1) + 1, { nb with devices := nb.devices ++ [newDevice nb.nextId ("probe-" ++ removeChar ':' nmac) (nb.devices.foldl maxFold (DEFAULT_START_PORT - 1) + 1)], nextId := nb.nextId + 1 }, ?_, rfl, ?_⟩
  · simp [request_port, hn, hfind, allocate_port, hmax]
  · set M := nb.devices.foldl maxFold (DEFAULT_START_PORT - 1) with hM
    set dname := "probe-" ++ removeChar ':' nmac with hdname
    set nb1 : Registry :=
      { nb with devices := (nb.devices ++ [newDevice nb.nextId dname (M + 1)]),
                nextId := nb.nextId + 1 } with hnb1
    have h1' : strat1 nb1 nmac = Option.none := @strat1_none_congr nb nb1 nmac rfl rfl h1
    have h2' : strat2 nb1 nmac = Option.none := @strat2_none_congr nb nb1 nmac rfl rfl h2
    have h3' : strat3 nb1 nmac = Option.none := by
      unfold strat3 at h3 ⊢
      show (nb.devices ++ [newDevice nb.nextId dname (M + 1)]).find? _ = _
      rw [List.find?_append, h3]
      simp [newDevice]
    have h4' : strat4 nb1 nmac = some (newDevice nb.nextId dname (M + 1)) := by
      unfold strat4 at h4 ⊢
      show (nb.devices ++ [newDevice nb.nextId dname (M + 1)]).find? _ = _
      rw [List.find?_append, h4]
      simp [newDevice, hcontains]
    have hfind2 : find_device_by_mac nb1 nmac =
        .ok (some (newDevice nb.nextId dname (M + 1))) := by
      rw [@find_via_strat4 nb1 nmac hflag h1' h2' hff h3' haf, h4']
    have hM10000 : DEFAULT_START_PORT - 1 ≤ M := le_foldl_maxFold nb.devices _
    have hMne : M + 1 ≠ 0 := by
      norm_num [DEFAULT_START_PORT] at hM10000
      omega
    simp [request_port, hn, hfind2, newDevice, CFVal.truthyInt, hMne]

/-- Witness for C1: the round trip on the empty registry. -/
theorem claim_C1_witness :
    ∃ p nb1,
      request_port (some emptyReg) "AA:BB:CC:DD:EE:FF" =
        .ok ({ mac := "aa:bb:cc:dd:ee:ff", port := p, existing := false,
               device_name := some ("probe-" ++ removeChar ':' "aa:bb:cc:dd:ee:ff") }, nb1) ∧
      nb1.devices = emptyReg.devices ++
        [newDevice emptyReg.nextId ("probe-" ++ removeChar ':' "aa:bb:cc:dd:ee:ff") p] ∧
      request_port (some nb1) "AA:BB:CC:DD:EE:FF" =
        .ok ({ mac := "aa:bb:cc:dd:ee:ff", port := p, existing := true,
               device_name := some ("probe-" ++ removeChar ':' "aa:bb:cc:dd:ee:ff") }, nb1) :=
  claim_C1_assign_twice emptyReg "AA:BB:CC:DD:EE:FF" "aa:bb:cc:dd:ee:ff" (by decide) rfl rfl

/-! ## Claim C8 -/

/-- C8: the health operation never fails: for every service state
(registry client present or not) it returns HTTP 200 with a body
containing `status`, a boolean connection flag that reports whether the
registry client is available, and a timestamp; when the registry is
unavailable the flag reports the degraded state instead of the handler
erroring. -/
theorem claim_C8_health_total :
    ∀ (nb? : Option Registry) (now : String),
      responseStatus (health_check nb? now) = 200 ∧
      health_check nb? now =
        .ok { status := "healthy", netbox_connected := nb?.isSome, timestamp := now } ∧
      (nb? = Option.none →
        health_check nb? now =
          .ok { status := "healthy", netbox_connected := false, timestamp := now }) := by
  intro nb? now
  refine ⟨rfl, rfl, ?_⟩
  intro h
  subst h
  rfl

/-- Witness for C8: the degraded-state report with no registry client. -/
theorem claim_C8_witness :
    health_check Option.none "2026-10-12T00:00:00" =
      .ok { status := "healthy", netbox_connected := false,
            timestamp := "2026-10-12T00:00:00" } :=
  (claim_C8_health_total Option.none "2026-10-12T00:00:00").2.2 rfl

/-! ## Claim C5 -/

/-- C5 (as stated, refuted): an unexpected registry error in strategy 2
(the interface lookup) does not propagate — the code's bare
`except Exception` around that strategy swallows it and resolution
continues, here finishing with `ok none` instead of an error. -/
theorem claim_C5_counterexample :
    ¬ (∀ (nb : Registry) (mac : String),
        nb.interfacesFail = true → ∃ e, find_device_by_mac nb mac = .error e) := by
  intro hall
  obtain ⟨e, he⟩ := hall regStrat2Fails "aa:bb:cc:dd:ee:ff" rfl
  have hok : find_device_by_mac regStrat2Fails "aa:bb:cc:dd:ee:ff" = .ok Option.none := rfl
  rw [hok] at he
  exact Except.noConfusion he

/-- C5 (amended): the resolver tries its four strategies in order; a
structurally unsupported strategy 1 is skipped without error, a strategy
returning zero matches passes control onward, and an unexpected registry
error propagates when it hits strategy 1 (with the schema present),
strategy 3, or strategy 4 — but an unexpected error in strategy 2 is
caught and logged, and resolution falls through to strategy 3 as if the
interface table were empty. -/
theorem claim_C5_resolver_errors :
    ∀ (nb : Registry) (mac : String),
      ((nb.hasMacEndpoint && nb.macEndpointFails) = true →
        find_device_by_mac nb mac = .error .registryError) ∧
      (nb.hasMacEndpoint = false →
        find_device_by_mac nb mac =
          find_device_by_mac
            { nb with hasMacEndpoint := true, macEndpointFails := false,
                      macObjects := [] } mac) ∧
      (nb.interfacesFail = true →
        find_device_by_mac nb mac =
          find_device_by_mac { nb with interfacesFail := false, interfaces := [] } mac) ∧
      ((nb.hasMacEndpoint && nb.macEndpointFails) = false →
        strat1 nb mac = Option.none → strat2 nb mac = Option.none →
        nb.devicesFilterFails = false → strat3 nb mac = Option.none →
        nb.devicesAllFails = false →
        find_device_by_mac nb mac = .ok (strat4 nb mac)) ∧
      ((nb.hasMacEndpoint && nb.macEndpointFails) = false →
        strat1 nb mac = Option.none → strat2 nb mac = Option.none →
        nb.devicesFilterFails = true →
        find_device_by_mac nb mac = .error .registryError) ∧
      ((nb.hasMacEndpoint && nb.macEndpointFails) = false →
        strat1 nb mac = Option.none → strat2 nb mac = Option.none →
        nb.devicesFilterFails = false → strat3 nb mac = Option.none →
        nb.devicesAllFails = true →
        find_device_by_mac nb mac = .error .registryError) := by
  intro nb mac
  refine ⟨?_, ?_, ?_, ?_, ?_, ?_⟩
  · intro h
    unfold find_device_by_mac
    rw [h]
    rfl
  · intro h
    unfold find_device_by_mac
    have e1 : strat1 nb mac = Option.none := by simp [strat1, h]
    have e2 : strat1
        { nb with hasMacEndpoint := true, macEndpointFails := false, macObjects := [] } mac =
        Option.none := by simp [strat1]
    have e3 : strat2
        { nb with hasMacEndpoint := true, macEndpointFails := false, macObjects := [] } mac =
        strat2 nb mac := rfl
    have e4 : strat3
        { nb with hasMacEndpoint := true, macEndpointFails := false, macObjects := [] } mac =
        strat3 nb mac := rfl
    have e5 : strat4
        { nb with hasMacEndpoint := true, macEndpointFails := false, macObjects := [] } mac =
        strat4 nb mac := rfl
    simp only [h, e1, e2, e3, e4, e5, Bool.false_and, Bool.true_and, Bool.false_eq_true,
      if_false]
  · intro h
    unfold find_device_by_mac
    have e1 : strat1 { nb with interfacesFail := false, interfaces := [] } mac =
        strat1 nb mac := rfl
    have e2 : strat2 nb mac = Option.none := by simp [strat2, h]
    have e2' : strat2 { nb with interfacesFail := false, interfaces := [] } mac =
        Option.none := by simp [strat2]
    have e3 : strat3 { nb with interfacesFail := false, interfaces := [] } mac =
        strat3 nb mac := rfl
    have e4 : strat4 { nb with interfacesFail := false, interfaces := [] } mac =
        strat4 nb mac := rfl
    simp only [e1, e2, e2', e3, e4]
  · exact fun hflag h1 h2 hff h3 haf => find_via_strat4 hflag h1 h2 hff h3 haf
  · intro hflag h1 h2 hff
    unfold find_device_by_mac
    rw [hflag, h1, h2, hff]
    rfl
  · intro hflag h1 h2 hff h3 haf
    unfold find_device_by_mac
    rw [hflag, h1, h2, hff, h3, haf]
    rfl

/-- Witness for C5 (amended): on the registry whose interface filter
fails, resolution behaves exactly as with an empty, healthy interface
table. -/
theorem claim_C5_witness :
    find_device_by_mac regStrat2Fails "aa:bb:cc:dd:ee:ff" =
      find_device_by_mac { regStrat2Fails with interfacesFail := false, interfaces := [] }
        "aa:bb:cc:dd:ee:ff" :=
  (claim_C5_resolver_errors regStrat2Fails "aa:bb:cc:dd:ee:ff").2.2.1 rfl

/-! ## Claim C2 -/

theorem filterMap_updatePort_perm {l : List Device} {d : Device} (hmem : d ∈ l)
    (hnodup : (l.map (fun e => e.id)).Nodup)
    (hnone : d.proxy_port.truthyInt = Option.none) {p : Int} (hp : p ≠ 0) :
    ((updatePort l d.id p).filterMap (fun e => e.proxy_port.truthyInt)).Perm
      (p :: l.filterMap (fun e => e.proxy_port.truthyInt)) := by
  induction l with
  | nil => simp at hmem
  | cons e t ih =>
    rw [List.map_cons, List.nodup_cons] at hnodup
    by_cases hid : e.id = d.id
    · have hed : e = d := by
        rcases List.mem_cons.mp hmem with rfl | hmem2
        · rfl
        · exact absurd (hid ▸ List.mem_map_of_mem (fun x => x.id) hmem2) hnodup.1
      subst hed
      have htail : t.map
          (fun x => if x.id = e.id then { x with proxy_port := CFVal.int p } else x) = t := by
        apply (List.map_congr_left ?_).trans (List.map_id t)
        intro x hx
        have hne : x.id ≠ e.id :=
          fun hxe => hnodup.1 (hxe ▸ List.mem_map_of_mem (fun y => y.id) hx)
        simp [hne]
      have hupd : updatePort (e :: t) e.id p = { e with proxy_port := CFVal.int p } :: t := by
        unfold updatePort
        rw [List.map_cons, if_pos rfl, htail]
      rw [hupd, List.filterMap_cons, List.filterMap_cons]
      have h1 : ({ e with proxy_port := CFVal.int p } : Device).proxy_port.truthyInt =
          some p := by
        simp [CFVal.truthyInt, hp]
      rw [h1, hnone]
    · have hmem2 : d ∈ t := by
        rcases List.mem_cons.mp hmem with rfl | hmem2
        · exact absurd rfl hid
        · exact hmem2
      have hupd : updatePort (e :: t) d.id p = e :: updatePort t d.id p := by
        simp [updatePort, hid]
      rw [hupd, List.filterMap_cons, List.filterMap_cons]
      cases he : e.proxy_port.truthyInt with
      | none => exact ih hmem2 hnodup.2
      | some q =>
        have hperm := (ih hmem2 hnodup.2).cons q
        exact hperm.trans (List.Perm.swap p q _)

/-- C2 (amended): any SEQUENTIAL `request_port` call — run to completion
on its own — preserves pairwise distinctness of the truthy integer port
attributes across device records; the claim as stated over arbitrary
interleavings fails (see the counterexample). -/
theorem claim_C2_sequential_unique (nb : Registry) (mac : String)
    (r : PortResponse) (nb' : Registry)
    (h : request_port (some nb) mac = .ok (r, nb'))
    (hnodup : (nb.devices.map (fun e => e.id)).Nodup)
    (hports : (portsList nb).Nodup) : (portsList nb').Nodup := by
  unfold request_port at h
  cases hn : normalize_mac mac with
  | error e => rw [hn] at h; simp at h
  | ok nmac =>
  rw [hn] at h
  simp only [] at h
  cases hfind : find_device_by_mac nb nmac with
  | error e => rw [hfind] at h; simp at h
  | ok dev? =>
  rw [hfind] at h
  have hM := le_foldl_maxFold nb.devices (DEFAULT_START_PORT - 1)
  set M := nb.devices.foldl maxFold (DEFAULT_START_PORT - 1) with hMdef
  have hMpos : (10000 : Int) ≤ M := by
    rw [hMdef]
    norm_num [DEFAULT_START_PORT] at hM
    exact hM
  have hMne : M + 1 ≠ 0 := by omega
  have hnotmem : M + 1 ∉ portsList nb := by
    intro hcon
    have hle : M + 1 ≤ nb.devices.foldl maxFold (DEFAULT_START_PORT - 1) :=
      mem_le_foldl_maxFold hcon _
    rw [← hMdef] at hle
    omega
  cases dev? with
  | some d =>
    simp only [] at h
    cases hport : d.proxy_port.truthyInt with
    | some p =>
      rw [hport] at h
      simp only [Except.ok.injEq, Prod.mk.injEq] at h
      rw [← h.2]
      exact hports
    | none =>
      rw [hport] at h
      have hmem : d ∈ nb.devices := find_device_mem hfind
      unfold allocate_port at h
      cases hga : get_max_assigned_port nb with
      | error e => rw [hga] at h; simp at h
      | ok m =>
      rw [hga] at h
      have hm : m = M := by
        unfold get_max_assigned_port at hga
        split at hga
        · simp at hga
        · rw [hMdef]
          simpa using hga.symm
      subst hm
      simp only [Except.ok.injEq, Prod.mk.injEq] at h
      rw [← h.2]
      show ((updatePort nb.devices d.id (M + 1)).filterMap
        (fun e => e.proxy_port.truthyInt)).Nodup
      have hperm := filterMap_updatePort_perm hmem hnodup hport hMne
      exact (hperm.nodup_iff).mpr (List.nodup_cons.mpr ⟨hnotmem, hports⟩)
  | none =>
    simp only [] at h
    unfold allocate_port at h
    cases hga : get_max_assigned_port nb with
    | error e => rw [hga] at h; simp at h
    | ok m =>
    rw [hga] at h
    have hm : m = M := by
      unfold get_max_assigned_port at hga
      split at hga
      · simp at hga
      · rw [hMdef]
        simpa using hga.symm
    subst hm
    simp only [Except.ok.injEq, Prod.mk.injEq] at h
    rw [← h.2]
    show ((nb.devices ++
      [newDevice nb.nextId ("probe-" ++ removeChar ':' nmac) (M + 1)]).filterMap
        (fun e => e.proxy_port.truthyInt)).Nodup
    rw [List.filterMap_append]
    have hnew : [newDevice nb.nextId ("probe-" ++ removeChar ':' nmac) (M + 1)].filterMap
        (fun e => e.proxy_port.truthyInt) = [M + 1] := by
      simp [newDevice, CFVal.truthyInt, hMne]
    rw [hnew]
    exact ((List.perm_append_singleton _ _).nodup_iff).mpr
      (List.nodup_cons.mpr ⟨hnotmem, hports⟩)

/-- C2 (as stated, refuted): with the calls' registry operations allowed
to interleave — the spec's own concurrency model for the unserialized
read-compute-write sequence — two concurrent first-time calls for the
distinct MACs `aa:bb:cc:dd:ee:01` and `aa:bb:cc:dd:ee:02` on an empty
registry can both observe max 10000 and both write port 10001: the
round-robin schedule violates port uniqueness. -/
theorem claim_C2_counterexample :
    ¬ (∀ sched : List Nat, (portsList (runSched sys0 sched).reg).Nodup) := by
  intro hall
  have h := hall [0, 1, 0, 1, 0, 1]
  have hc : portsList (runSched sys0 [0, 1, 0, 1, 0, 1]).reg = [10001, 10001] := by decide
  rw [hc] at h
  simp at h

/-- Witness for C2 (amended): the sequential preservation applied to the
first allocation on the empty registry. -/
theorem claim_C2_witness : (portsList regAfter1).Nodup :=
  claim_C2_sequential_unique emptyReg "AA:BB:CC:DD:EE:FF" resp1 regAfter1 rfl
    (by decide) (by decide)

end Gatekeeper
